import Mathlib

/-!
# Verification of `parse-ns.py`

A shallow embedding of the Citrix Netscaler configuration parser
`parse-ns.py`.  The script reads configuration lines, classifies each by
its (lower-cased) directive text, extracts whitespace-delimited fields at
fixed positions plus one optional flag-introduced comment, accumulates the
facts in five dictionaries, and finally projects two reports (LB and GSLB)
by chained dictionary lookups.

Strings are modelled as `List Char`; Python's `str.split()`,
`str.partition(sep)[2]`, `str.strip(chars)`, `str.lower()`,
`str.startswith` and the `in` substring test are given explicit
executable definitions.  Dictionaries are association lists whose `dset`
replaces the value of an existing key in place (Python's key-overwrite
semantics); out-of-range positional indexing is modelled by `Option`
(`none` = the `IndexError` the script would raise).
-/

set_option maxRecDepth 10000

abbrev Str := List Char

/-- Characters Python's `str.split()` treats as whitespace. -/
def isSpaceChar (c : Char) : Bool :=
  c == ' ' || c == '\t' || c == '\n' || c == '\r' || c == '\x0b' || c == '\x0c'

/-- Accumulator-based worker for `pysplit`. -/
def splitAux (acc : Str) : Str → List Str
  | [] => if acc.isEmpty then [] else [acc.reverse]
  | c :: cs =>
    if isSpaceChar c then
      if acc.isEmpty then splitAux [] cs else acc.reverse :: splitAux [] cs
    else
      splitAux (c :: acc) cs

/-- Python `s.split()`: split on runs of whitespace, dropping empty pieces. -/
def pysplit (s : Str) : List Str := splitAux [] s

/-- Python `s.lower()` (ASCII case folding, as used by the script). -/
def lowerStr (s : Str) : Str := s.map Char.toLower

/-- `pfxOf p s = true` iff `p` is a leading segment of `s`
(Python `s.startswith(p)`). -/
def pfxOf : Str → Str → Bool
  | [], _ => true
  | _ :: _, [] => false
  | a :: as, b :: bs => a == b && pfxOf as bs

/-- Python `sub in s`: substring containment, case-sensitive. -/
def hasSub (sub : Str) : Str → Bool
  | [] => sub.isEmpty
  | c :: cs => pfxOf sub (c :: cs) || hasSub sub cs

/-- Python `s.partition(sep)[2]`: everything after the first occurrence of
`sep`, or the empty string when `sep` does not occur. -/
def partAfter (sep : Str) : Str → Str
  | [] => []
  | c :: cs => if pfxOf sep (c :: cs) then (c :: cs).drop sep.length else partAfter sep cs

/-- Python `s.strip(chars)`: drop characters of `cs` from both ends. -/
def stripChars (cs : Str) (s : Str) : Str :=
  ((s.dropWhile (fun c => cs.contains c)).reverse.dropWhile (fun c => cs.contains c)).reverse

/-- The two characters stripped from extracted comments: `"` and newline. -/
def quoteNl : Str := ['"', '\n']

/-! ## Dictionaries

Python dictionaries, modelled as association lists: assignment to an
existing key replaces the value in place, assignment to a new key appends
it; lookup returns the value of the first (hence, with distinct keys, the
only) matching entry. -/

abbrev Dict (α : Type) := List (Str × α)

/-- Dictionary lookup (`d[k]`, with `none` for `KeyError`). -/
def dget {α : Type} : Dict α → Str → Option α
  | [], _ => none
  | (k', v) :: rest, k => if k' = k then some v else dget rest k

/-- Dictionary assignment `d[k] = v`. -/
def dset {α : Type} : Dict α → Str → α → Dict α
  | [], k, v => [(k, v)]
  | (k', v') :: rest, k, v =>
    if k' = k then (k, v) :: rest else (k', v') :: dset rest k v

/-! ## The relation store

The five global dictionaries of the script. -/

structure NSState where
  /-- `servers[IP] = [srvName, srvComment]` -/
  servers : Dict (Str × Str)
  /-- `srvs[srvName] = [serviceGroup/gslbService, kind, port, srvComment]`
  where `kind` is the literal `LB` for `bind serviceGroup` facts and the
  declared service type for `add gslb service` facts. -/
  srvs : Dict (Str × Str × Str × Str)
  /-- `vServers[serviceGroup/gslbService] = vServer` -/
  vServers : Dict Str
  /-- `VIPs[vServer] = [VIP, serviceType, port, VIPcomment]` -/
  VIPs : Dict (Str × Str × Str × Str)
  /-- `domains[vserver] = domain` (newline-joined accumulation) -/
  domains : Dict Str
  deriving DecidableEq, Repr

/-- The store before any input line is read: five empty dictionaries. -/
def initState : NSState := ⟨[], [], [], [], []⟩

/-! ## Directive prefixes and flag substrings (verbatim from the script) -/

def addServerPfx : Str := "add server".data
def bindSgPfx : Str := "bind servicegroup".data
def bindLbPfx : Str := "bind lb vserver".data
def addLbPfx : Str := "add lb vserver".data
def addGslbPfx : Str := "add gslb service".data
def bindGslbPfx : Str := "bind gslb vserver".data

def monFlag : Str := "-monitorName".data
def svcFlag : Str := "-serviceName".data
def domFlag : Str := "-domainName".data
def commentFlag : Str := "-comment ".data
def csidFlag : Str := "-CustomServerID ".data
def lbTag : Str := "LB".data
def nlStr : Str := ['\n']

/-! ## Fact parsers

Each parser reads its fixed token positions first (any of which may be
out of range, modelled as `none`) and only then performs its single
dictionary write, exactly as the Python functions do. -/

/-- `add server [serverName] [IP] -comment ["..."]` → `servers[IP]`. -/
def server_parse (l : Str) (s : NSState) : Option NSState :=
  match (pysplit l).get? 2, (pysplit l).get? 3 with
  | some srvName, some ip =>
    some { s with servers := dset s.servers ip (srvName, stripChars quoteNl (partAfter commentFlag l)) }
  | _, _ => none

/-- `bind serviceGroup [group] [serverName] [port] -CustomServerID ["..."]`
→ `srvs[serverName]`; the `-monitorName` variant is skipped entirely. -/
def bind_servicegroup_parse (l : Str) (s : NSState) : Option NSState :=
  if hasSub monFlag l then some s
  else
    match (pysplit l).get? 2, (pysplit l).get? 3, (pysplit l).get? 4 with
    | some g, some srvName, some port =>
      some { s with srvs := dset s.srvs srvName (g, lbTag, port, stripChars quoteNl (partAfter csidFlag l)) }
    | _, _, _ => none

/-- `bind lb vserver [vserver] [serviceGroup]` → `vServers[serviceGroup]`. -/
def bind_lb_parse (l : Str) (s : NSState) : Option NSState :=
  match (pysplit l).get? 3, (pysplit l).get? 4 with
  | some v, some g => some { s with vServers := dset s.vServers g v }
  | _, _ => none

/-- `add lb vserver [vserver] [serviceType] [VIP] [port] ... -comment ["..."]`
→ `VIPs[vserver]`. -/
def lb_vserver_parse (l : Str) (s : NSState) : Option NSState :=
  match (pysplit l).get? 3, (pysplit l).get? 4, (pysplit l).get? 5, (pysplit l).get? 6 with
  | some v, some st, some vip, some port =>
    some { s with VIPs := dset s.VIPs v (vip, st, port, stripChars quoteNl (partAfter commentFlag l)) }
  | _, _, _, _ => none

/-- `add gslb service [gslbService] [serverName] [serviceType] [port] ...
-comment ["..."]` → `srvs[serverName]` (the gslb service id occupies the
group slot and the declared service type the kind slot). -/
def gslb_parse (l : Str) (s : NSState) : Option NSState :=
  match (pysplit l).get? 3, (pysplit l).get? 4, (pysplit l).get? 5, (pysplit l).get? 6 with
  | some g, some srvName, some st, some port =>
    some { s with srvs := dset s.srvs srvName (g, st, port, stripChars quoteNl (partAfter commentFlag l)) }
  | _, _, _, _ => none

/-- `bind gslb vserver` has two sub-forms, selected by case-sensitive
substring search with `-serviceName` first; a line with neither flag is a
no-op. The domain form appends newline-joined to `domains[vserver]`. -/
def gslb_vserver_parse (l : Str) (s : NSState) : Option NSState :=
  if hasSub svcFlag l then
    match (pysplit l).get? 3, (pysplit l).get? 5 with
    | some v, some g => some { s with vServers := dset s.vServers g v }
    | _, _ => none
  else if hasSub domFlag l then
    match (pysplit l).get? 3, (pysplit l).get? 5 with
    | some v, some d =>
      some { s with domains := dset s.domains v (match dget s.domains v with | some old => old ++ nlStr ++ d | none => d) }
    | _, _ => none
  else some s

/-- The directive classifier `readline`: dispatch on the lower-cased
line's leading text, silently ignoring unrecognized lines. -/
def readline (l : Str) (s : NSState) : Option NSState :=
  if pfxOf addServerPfx (lowerStr l) then server_parse l s
  else if pfxOf bindSgPfx (lowerStr l) then bind_servicegroup_parse l s
  else if pfxOf bindLbPfx (lowerStr l) then bind_lb_parse l s
  else if pfxOf addLbPfx (lowerStr l) then lb_vserver_parse l s
  else if pfxOf addGslbPfx (lowerStr l) then gslb_parse l s
  else if pfxOf bindGslbPfx (lowerStr l) then gslb_vserver_parse l s
  else some s

/-- The input-reading phase: feed every line to `readline` in order;
`none` when some line raises (which aborts the run). -/
def runLines : NSState → List Str → Option NSState
  | s, [] => some s
  | s, l :: ls =>
    match readline l s with
    | none => none
    | some s' => runLines s' ls

/-- Like `runLines` but keeps the store reached when a line raises:
the result is the store at termination together with `true` when the run
was aborted by an uncaught `IndexError`. -/
def runTrace : NSState → List Str → NSState × Bool
  | s, [] => (s, false)
  | s, l :: ls =>
    match readline l s with
    | none => (s, true)
    | some s' => runTrace s' ls

/-- Number of whitespace tokens a recognized directive line must have for
its parser's fixed-position reads to all be in range (one more than the
highest index read); `none` for unrecognized lines and for the variants
that perform no positional read (`-monitorName` group bindings and
`bind gslb vserver` lines carrying neither flag). -/
def requiredToks (l : Str) : Option Nat :=
  if pfxOf addServerPfx (lowerStr l) then some 4
  else if pfxOf bindSgPfx (lowerStr l) then
    if hasSub monFlag l then none else some 5
  else if pfxOf bindLbPfx (lowerStr l) then some 5
  else if pfxOf addLbPfx (lowerStr l) then some 7
  else if pfxOf addGslbPfx (lowerStr l) then some 7
  else if pfxOf bindGslbPfx (lowerStr l) then
    if hasSub svcFlag l then some 6
    else if hasSub domFlag l then some 6
    else none
  else none

/-! ## Report projection

Each report iterates over the server dictionary and follows a chain of
lookups, `continue`-ing (here: `none`) on the first `KeyError`. -/

abbrev Row := List Str

/-- The LB row attempted for one server entry:
`srvs[srvName] → vServers[group] → VIPs[vServer]`, then
`(VIP, serviceType, VIPport, VIPcomment, vServer, serviceGroup, port,
CustomServerID, srvName, srvComment, IP)`. The kind field is unpacked
into `notUsed` and ignored. -/
def lbRowOf (s : NSState) (ip nm cm : Str) : Option Row :=
  match dget s.srvs nm with
  | none => none
  | some (g, _, port, csid) =>
    match dget s.vServers g with
    | none => none
    | some v =>
      match dget s.VIPs v with
      | none => none
      | some (vip, st, vipPort, vipCm) =>
        some [vip, st, vipPort, vipCm, v, g, port, csid, nm, cm, ip]

/-- The GSLB row attempted for one server entry:
`srvs[srvName] → vServers[gslbService] → domains[vServer]`, then
`(domain, vServer, gslbService, serviceType, port, srvcComment,
srvComment, srvName, IP)`. -/
def gslbRowOf (s : NSState) (ip nm cm : Str) : Option Row :=
  match dget s.srvs nm with
  | none => none
  | some (g, st, port, svcCm) =>
    match dget s.vServers g with
    | none => none
    | some v =>
      match dget s.domains v with
      | none => none
      | some d => some [d, v, g, st, port, svcCm, cm, nm, ip]

/-- The data rows of the LB report, in server-dictionary order. -/
def lbReport (s : NSState) : List Row :=
  s.servers.filterMap (fun e => lbRowOf s e.1 e.2.1 e.2.2)

/-- The data rows of the GSLB report, in server-dictionary order. -/
def gslbReport (s : NSState) : List Row :=
  s.servers.filterMap (fun e => gslbRowOf s e.1 e.2.1 e.2.2)

/-! ## Association-list (dictionary) lemmas -/

theorem dget_dset_self {α : Type} (d : Dict α) (k : Str) (v : α) :
    dget (dset d k v) k = some v := by
  induction d with
  | nil => simp [dset, dget]
  | cons e rest ih =>
    obtain ⟨k', v'⟩ := e
    by_cases h : k' = k <;> simp [dset, dget, h, ih]

theorem dget_dset_ne {α : Type} (d : Dict α) (k k' : Str) (v : α) (h : k' ≠ k) :
    dget (dset d k v) k' = dget d k' := by
  have hkk : ¬k = k' := fun he => h he.symm
  induction d with
  | nil => simp [dset, dget, hkk]
  | cons e rest ih =>
    obtain ⟨a, b⟩ := e
    rcases eq_or_ne a k with rfl | ha
    · simp [dset, dget, hkk]
    · simp [dset, dget, ha, ih]

theorem mem_of_dget {α : Type} (d : Dict α) (k : Str) (v : α)
    (h : dget d k = some v) : (k, v) ∈ d := by
  induction d with
  | nil => cases h
  | cons e rest ih =>
    obtain ⟨a, b⟩ := e
    rcases eq_or_ne a k with rfl | ha
    · simp only [dget, if_pos rfl] at h
      obtain rfl := Option.some.inj h
      exact List.mem_cons_self _ _
    · simp only [dget, if_neg ha] at h
      exact List.mem_cons_of_mem _ (ih h)

theorem keys_dset_mem {α : Type} (d : Dict α) (k : Str) (v : α)
    (h : k ∈ d.map Prod.fst) : (dset d k v).map Prod.fst = d.map Prod.fst := by
  induction d with
  | nil => cases h
  | cons e rest ih =>
    obtain ⟨a, b⟩ := e
    rcases eq_or_ne a k with rfl | ha
    · simp [dset]
    · have hk : k ∈ rest.map Prod.fst := by
        rcases List.mem_cons.mp h with he | hm
        · exact absurd he.symm ha
        · exact hm
      simp [dset, ha, ih hk]

theorem keys_dset_not_mem {α : Type} (d : Dict α) (k : Str) (v : α)
    (h : k ∉ d.map Prod.fst) : (dset d k v).map Prod.fst = d.map Prod.fst ++ [k] := by
  induction d with
  | nil => simp [dset]
  | cons e rest ih =>
    obtain ⟨a, b⟩ := e
    simp only [List.map_cons, List.mem_cons] at h
    push_neg at h
    have ha : a ≠ k := fun he => h.1 he.symm
    simp [dset, ha, ih h.2]

theorem keysND_dset {α : Type} (d : Dict α) (k : Str) (v : α)
    (h : (d.map Prod.fst).Nodup) : ((dset d k v).map Prod.fst).Nodup := by
  by_cases hk : k ∈ d.map Prod.fst
  · rw [keys_dset_mem d k v hk]
    exact h
  · rw [keys_dset_not_mem d k v hk]
    simp [List.nodup_append, h, hk]

/-! ## Prefix lemmas

Two `pfxOf`-leading segments of the same string are comparable, which
lets us rule out every directive branch other than the one a line
actually matches. -/

theorem pfxOf_or (p q s : Str) (hp : pfxOf p s = true) (hq : pfxOf q s = true) :
    pfxOf p q = true ∨ pfxOf q p = true := by
  induction s generalizing p q with
  | nil =>
    cases p with
    | nil => left; rfl
    | cons a as => cases hp
  | cons c cs ih =>
    cases p with
    | nil => left; rfl
    | cons a as =>
      cases q with
      | nil => right; rfl
      | cons b bs =>
        simp only [pfxOf, Bool.and_eq_true, beq_iff_eq] at hp hq
        obtain ⟨rfl, hp'⟩ := hp
        obtain ⟨rfl, hq'⟩ := hq
        rcases ih as bs hp' hq' with h | h
        · left; simp [pfxOf, h]
        · right; simp [pfxOf, h]

theorem pfxOf_eq_false (p q s : Str) (hq : pfxOf q s = true)
    (h1 : pfxOf p q = false) (h2 : pfxOf q p = false) : pfxOf p s = false := by
  cases hps : pfxOf p s with
  | false => rfl
  | true =>
    rcases pfxOf_or p q s hps hq with h | h
    · rw [h1] at h; cases h
    · rw [h2] at h; cases h

/-! ## Dispatch lemmas: which parser a recognized line reaches -/

theorem readline_bind_sg (l : Str) (s : NSState)
    (hp : pfxOf bindSgPfx (lowerStr l) = true) :
    readline l s = bind_servicegroup_parse l s := by
  have h1 : pfxOf addServerPfx (lowerStr l) = false :=
    pfxOf_eq_false _ bindSgPfx _ hp (by decide) (by decide)
  simp [readline, h1, hp]

theorem readline_bind_lb (l : Str) (s : NSState)
    (hp : pfxOf bindLbPfx (lowerStr l) = true) :
    readline l s = bind_lb_parse l s := by
  have h1 : pfxOf addServerPfx (lowerStr l) = false :=
    pfxOf_eq_false _ bindLbPfx _ hp (by decide) (by decide)
  have h2 : pfxOf bindSgPfx (lowerStr l) = false :=
    pfxOf_eq_false _ bindLbPfx _ hp (by decide) (by decide)
  simp [readline, h1, h2, hp]

theorem readline_gslb_vserver (l : Str) (s : NSState)
    (hp : pfxOf bindGslbPfx (lowerStr l) = true) :
    readline l s = gslb_vserver_parse l s := by
  have h1 : pfxOf addServerPfx (lowerStr l) = false :=
    pfxOf_eq_false _ bindGslbPfx _ hp (by decide) (by decide)
  have h2 : pfxOf bindSgPfx (lowerStr l) = false :=
    pfxOf_eq_false _ bindGslbPfx _ hp (by decide) (by decide)
  have h3 : pfxOf bindLbPfx (lowerStr l) = false :=
    pfxOf_eq_false _ bindGslbPfx _ hp (by decide) (by decide)
  have h4 : pfxOf addLbPfx (lowerStr l) = false :=
    pfxOf_eq_false _ bindGslbPfx _ hp (by decide) (by decide)
  have h5 : pfxOf addGslbPfx (lowerStr l) = false :=
    pfxOf_eq_false _ bindGslbPfx _ hp (by decide) (by decide)
  simp [readline, h1, h2, h3, h4, h5, hp]

/-! ## Permutations

A structurally recursive enumeration of all reorderings of a list,
used to state and check order-independence of the read phase. -/

def insertsOf {α : Type} (a : α) : List α → List (List α)
  | [] => [[a]]
  | b :: bs => (a :: b :: bs) :: (insertsOf a bs).map (fun t => b :: t)

def permsOf {α : Type} : List α → List (List α)
  | [] => [[]]
  | a :: as => (permsOf as).flatMap (insertsOf a)

theorem append_mem_insertsOf {α : Type} (a : α) (p1 p2 : List α) :
    p1 ++ a :: p2 ∈ insertsOf a (p1 ++ p2) := by
  induction p1 with
  | nil => cases p2 <;> simp [insertsOf]
  | cons b bs ih =>
    simp only [List.cons_append, insertsOf, List.mem_cons]
    right
    exact List.mem_map_of_mem _ ih

theorem perm_mem_permsOf {α : Type} (l p : List α) (hp : p.Perm l) :
    p ∈ permsOf l := by
  induction l generalizing p with
  | nil =>
    rw [hp.eq_nil]
    simp [permsOf]
  | cons a as ih =>
    have ha : a ∈ p := hp.mem_iff.mpr (List.mem_cons_self a as)
    obtain ⟨p1, p2, rfl⟩ := List.append_of_mem ha
    have hmid : (p1 ++ a :: p2).Perm (a :: (p1 ++ p2)) := List.perm_middle
    have htail : (p1 ++ p2).Perm as := (hmid.symm.trans hp).cons_inv
    refine List.mem_flatMap.mpr ⟨p1 ++ p2, ih _ htail, ?_⟩
    exact append_mem_insertsOf a p1 p2

/-! ## Distinct-key invariant of the store -/

/-- The keys of a dictionary are pairwise distinct. -/
def keysND {α : Type} (d : Dict α) : Prop := (d.map Prod.fst).Nodup

/-- Every dictionary of the store has pairwise distinct keys. -/
def StoreWF (s : NSState) : Prop :=
  keysND s.servers ∧ keysND s.srvs ∧ keysND s.vServers ∧ keysND s.VIPs ∧ keysND s.domains

theorem keysND_dset' {α : Type} (d : Dict α) (k : Str) (v : α) (h : keysND d) :
    keysND (dset d k v) := keysND_dset d k v h

theorem storeWF_init : StoreWF initState := by
  refine ⟨?_, ?_, ?_, ?_, ?_⟩ <;> simp [keysND, initState]

theorem storeWF_readline (l : Str) (s s' : NSState)
    (h : readline l s = some s') (hs : StoreWF s) : StoreWF s' := by
  unfold readline server_parse bind_servicegroup_parse bind_lb_parse lb_vserver_parse gslb_parse gslb_vserver_parse at h
  split_ifs at h <;>
    (try split at h) <;>
    first
      | (obtain rfl := Option.some.inj h
         refine ⟨?_, ?_, ?_, ?_, ?_⟩ <;>
           first
             | exact hs.1
             | exact hs.2.1
             | exact hs.2.2.1
             | exact hs.2.2.2.1
             | exact hs.2.2.2.2
             | exact keysND_dset' _ _ _ hs.1
             | exact keysND_dset' _ _ _ hs.2.1
             | exact keysND_dset' _ _ _ hs.2.2.1
             | exact keysND_dset' _ _ _ hs.2.2.2.1
             | exact keysND_dset' _ _ _ hs.2.2.2.2)
      | cases h

theorem storeWF_runLines (ls : List Str) : ∀ s s' : NSState,
    runLines s ls = some s' → StoreWF s → StoreWF s' := by
  induction ls with
  | nil =>
    intro s s' h hs
    obtain rfl := Option.some.inj h
    exact hs
  | cons l ls ih =>
    intro s s' h hs
    unfold runLines at h
    cases hr : readline l s with
    | none => rw [hr] at h; cases h
    | some s1 =>
      rw [hr] at h
      exact ih s1 s' h (storeWF_readline l s s1 hr hs)

/-! ## LB report row accounting -/

theorem lbRowOf_getLast (s : NSState) (ip nm cm : Str) (r : Row)
    (h : lbRowOf s ip nm cm = some r) : r.getLast? = some ip := by
  unfold lbRowOf at h
  split at h
  · cases h
  · split at h
    · cases h
    · split at h
      · cases h
      · obtain rfl := Option.some.inj h
        rfl

theorem lb_filter_not_mem (s : NSState) (es : List (Str × Str × Str)) (ip : Str)
    (h : ip ∉ es.map Prod.fst) :
    (es.filterMap (fun e => lbRowOf s e.1 e.2.1 e.2.2)).filter
      (fun r => decide (r.getLast? = some ip)) = [] := by
  induction es with
  | nil => rfl
  | cons e rest ih =>
    simp only [List.map_cons, List.mem_cons] at h
    push_neg at h
    cases hrow : lbRowOf s e.1 e.2.1 e.2.2 with
    | none => simpa [List.filterMap_cons, hrow] using ih h.2
    | some r =>
      have hl := lbRowOf_getLast s e.1 e.2.1 e.2.2 r hrow
      have hne : ¬(r.getLast? = some ip) := by
        rw [hl]
        intro he
        exact h.1 (Option.some.inj he).symm
      simpa [List.filterMap_cons, hrow, List.filter_cons, hne] using ih h.2

theorem lb_filter_mem (s : NSState) (es : List (Str × Str × Str))
    (hnd : (es.map Prod.fst).Nodup) (ip nm cm : Str) (hmem : (ip, nm, cm) ∈ es) :
    (es.filterMap (fun e => lbRowOf s e.1 e.2.1 e.2.2)).filter
      (fun r => decide (r.getLast? = some ip)) = (lbRowOf s ip nm cm).toList := by
  induction es with
  | nil => cases hmem
  | cons e rest ih =>
    simp only [List.map_cons, List.nodup_cons] at hnd
    rcases List.mem_cons.mp hmem with rfl | hmem'
    · cases hrow : lbRowOf s ip nm cm with
      | none =>
        simpa [List.filterMap_cons, hrow] using lb_filter_not_mem s rest ip hnd.1
      | some r =>
        have hl := lbRowOf_getLast s ip nm cm r hrow
        have heq : r.getLast? = some ip := hl
        simp [List.filterMap_cons, hrow, List.filter_cons, heq,
          lb_filter_not_mem s rest ip hnd.1]
    · have hip : ip ∈ rest.map Prod.fst :=
        List.mem_map_of_mem Prod.fst hmem'
      have hne1 : e.1 ≠ ip := fun he => hnd.1 (he ▸ hip)
      cases hrow : lbRowOf s e.1 e.2.1 e.2.2 with
      | none => simpa [List.filterMap_cons, hrow] using ih hnd.2 hmem'
      | some r =>
        have hl := lbRowOf_getLast s e.1 e.2.1 e.2.2 r hrow
        have hne : ¬(r.getLast? = some ip) := by
          rw [hl]
          intro he
          exact hne1 (Option.some.inj he)
        simpa [List.filterMap_cons, hrow, List.filter_cons, hne] using ih hnd.2 hmem'

/-! ## Characterisation of `lbRowOf` -/

theorem lbRowOf_eq_some (s : NSState) (ip nm cm g k p c v vip st vp vc : Str)
    (h1 : dget s.srvs nm = some (g, k, p, c)) (h2 : dget s.vServers g = some v)
    (h3 : dget s.VIPs v = some (vip, st, vp, vc)) :
    lbRowOf s ip nm cm = some [vip, st, vp, vc, v, g, p, c, nm, cm, ip] := by
  simp [lbRowOf, h1, h2, h3]

theorem lbRowOf_isSome_iff (s : NSState) (ip nm cm : Str) :
    (∃ r, lbRowOf s ip nm cm = some r) ↔
      ∃ g k p c, dget s.srvs nm = some (g, k, p, c) ∧
        ∃ v, dget s.vServers g = some v ∧
          ∃ vip st vp vc, dget s.VIPs v = some (vip, st, vp, vc) := by
  constructor
  · rintro ⟨r, hr⟩
    cases h1 : dget s.srvs nm with
    | none => simp [lbRowOf, h1] at hr
    | some gv =>
      obtain ⟨g, k, p, c⟩ := gv
      cases h2 : dget s.vServers g with
      | none => simp [lbRowOf, h1, h2] at hr
      | some v =>
        cases h3 : dget s.VIPs v with
        | none => simp [lbRowOf, h1, h2, h3] at hr
        | some vv =>
          obtain ⟨vip, st, vp, vc⟩ := vv
          exact ⟨g, k, p, c, rfl, v, h2, vip, st, vp, vc, h3⟩
  · rintro ⟨g, k, p, c, h1, v, h2, vip, st, vp, vc, h3⟩
    exact ⟨_, lbRowOf_eq_some s ip nm cm g k p c v vip st vp vc h1 h2 h3⟩

/-! ## Concrete inputs used by the end-to-end claims -/

/-- The four LB example lines (spec §8 end-to-end example). -/
def c4lines : List Str :=
  ["add server S1 10.0.0.1".data,
   "bind serviceGroup SG1 S1 80 -CustomServerID \"c1\"".data,
   "bind lb vserver VS1 SG1".data,
   "add lb vserver VS1 HTTP 192.0.2.10 80 -comment \"v1\"".data]

/-- The single LB report row the example must produce. -/
def c4row : Row :=
  ["192.0.2.10".data, "HTTP".data, "80".data, "v1".data, "VS1".data, "SG1".data,
   "80".data, "c1".data, "S1".data, "".data, "10.0.0.1".data]

/-- The store reached after reading `c4lines` (in the given order). -/
def c4state : NSState :=
  { servers := [("10.0.0.1".data, ("S1".data, "".data))],
    srvs := [("S1".data, ("SG1".data, "LB".data, "80".data, "c1".data))],
    vServers := [("SG1".data, "VS1".data)],
    VIPs := [("VS1".data, ("192.0.2.10".data, "HTTP".data, "80".data, "v1".data))],
    domains := [] }

/-- The four GSLB example lines (spec §8 end-to-end GSLB example). -/
def c5lines : List Str :=
  ["add server S2 10.0.0.2".data,
   "add gslb service GS1 S2 HTTP 80 -comment \"g1\"".data,
   "bind gslb vserver VS2 -serviceName GS1".data,
   "bind gslb vserver VS2 -domainName example.com".data]

/-- The single GSLB report row the example must produce. -/
def c5row : Row :=
  ["example.com".data, "VS2".data, "GS1".data, "HTTP".data, "80".data,
   "g1".data, "".data, "S2".data, "10.0.0.2".data]

/-! ## Claim C1 -/

/-- The property claim C1 asserts of a store `s` and a server entry
`servers[ip] = (nm, cm)`: the LB report has a row ending in `ip` iff the
three lookups `srvs[nm]`, `vServers[group]`, `VIPs[vServer]` all succeed,
and when they do the rows ending in `ip` are exactly the one resolved row,
with the VIP first and `ip` last. -/
def LBChainSpec (s : NSState) (ip nm cm : Str) : Prop :=
  ((∃ r ∈ lbReport s, r.getLast? = some ip) ↔
    ∃ g k p c, dget s.srvs nm = some (g, k, p, c) ∧
      ∃ v, dget s.vServers g = some v ∧
        ∃ vip st vp vc, dget s.VIPs v = some (vip, st, vp, vc)) ∧
  (∀ g k p c v vip st vp vc,
    dget s.srvs nm = some (g, k, p, c) → dget s.vServers g = some v →
    dget s.VIPs v = some (vip, st, vp, vc) →
    (lbReport s).filter (fun r => decide (r.getLast? = some ip)) =
      [[vip, st, vp, vc, v, g, p, c, nm, cm, ip]])

/-- C1: for every input read from the empty store and every server entry
`servers[ip]`, the LB report contains a row for that server iff all three
chain lookups succeed; on success exactly one row is emitted for that IP,
with the resolved VIP in the first column and the server's own IP in the
last, and if any single link is missing no LB row for that server is
emitted. -/
theorem C1_lb_chain (lines : List Str) (s : NSState)
    (hrun : runLines initState lines = some s) (ip nm cm : Str)
    (hmem : dget s.servers ip = some (nm, cm)) : LBChainSpec s ip nm cm := by
  have hwf := storeWF_runLines lines initState s hrun storeWF_init
  have hmem' : (ip, nm, cm) ∈ s.servers := mem_of_dget _ _ _ hmem
  have hfil : (lbReport s).filter (fun r => decide (r.getLast? = some ip)) =
      (lbRowOf s ip nm cm).toList :=
    lb_filter_mem s s.servers hwf.1 ip nm cm hmem'
  constructor
  · constructor
    · rintro ⟨r, hr, hlast⟩
      have hmemf : r ∈ (lbReport s).filter (fun r => decide (r.getLast? = some ip)) :=
        List.mem_filter.mpr ⟨hr, by simpa using hlast⟩
      rw [hfil] at hmemf
      have hsome : lbRowOf s ip nm cm = some r := by
        cases hrow : lbRowOf s ip nm cm with
        | none => rw [hrow] at hmemf; cases hmemf
        | some r' =>
          rw [hrow] at hmemf
          simp only [Option.toList_some, List.mem_singleton] at hmemf
          rw [hmemf]
      exact (lbRowOf_isSome_iff s ip nm cm).mp ⟨r, hsome⟩
    · rintro ⟨g, k, p, c, h1, v, h2, vip, st, vp, vc, h3⟩
      have hrow := lbRowOf_eq_some s ip nm cm g k p c v vip st vp vc h1 h2 h3
      have hfil' : (lbReport s).filter (fun r => decide (r.getLast? = some ip)) =
          [[vip, st, vp, vc, v, g, p, c, nm, cm, ip]] := by
        rw [hfil, hrow]
        rfl
      have hm : [vip, st, vp, vc, v, g, p, c, nm, cm, ip] ∈
          (lbReport s).filter (fun r => decide (r.getLast? = some ip)) := by
        rw [hfil']
        exact List.mem_singleton.mpr rfl
      obtain ⟨hm1, hm2⟩ := List.mem_filter.mp hm
      exact ⟨_, hm1, of_decide_eq_true hm2⟩
  · intro g k p c v vip st vp vc h1 h2 h3
    rw [hfil, lbRowOf_eq_some s ip nm cm g k p c v vip st vp vc h1 h2 h3]
    rfl

/-- Witness for C1 at the concrete LB example input. -/
theorem C1_lb_chain_witness :
    dget c4state.servers "10.0.0.1".data = some ("S1".data, "".data) ∧
      LBChainSpec c4state "10.0.0.1".data "S1".data "".data :=
  ⟨by decide,
   C1_lb_chain c4lines c4state (by decide) "10.0.0.1".data "S1".data "".data (by decide)⟩

/-! ## Claim C4 -/

/-- All reorderings of `c4lines` produce the same store, and hence the
same single-row LB report. -/
theorem c4_all_orders : ∀ p ∈ permsOf c4lines,
    (runLines initState p).map lbReport = some [c4row] := by decide

/-- C4: reading the four example lines in any order (all read before
resolution) yields an LB report whose data rows are exactly the one row
`(192.0.2.10, HTTP, 80, v1, VS1, SG1, 80, c1, S1, "", 10.0.0.1)`. -/
theorem C4_lb_example (p : List Str) (hp : p.Perm c4lines) :
    (runLines initState p).map lbReport = some [c4row] :=
  c4_all_orders p (perm_mem_permsOf c4lines p hp)

/-- Witness for C4 at a concrete reordering of the example input. -/
theorem C4_lb_example_witness :
    (c4lines.reverse).Perm c4lines ∧
      (runLines initState c4lines.reverse).map lbReport = some [c4row] :=
  ⟨by decide, C4_lb_example c4lines.reverse (by decide)⟩

/-! ## Claim C5 -/

/-- C5: reading the four GSLB example lines yields a GSLB report whose
data rows are exactly the one row
`(example.com, VS2, GS1, HTTP, 80, g1, "", S2, 10.0.0.2)`: its domain
column is `example.com`, its vServer column `VS2`, its gslbService column
`GS1` and its IP column `10.0.0.2`. -/
theorem C5_gslb_example :
    (runLines initState c5lines).map gslbReport = some [c5row] := by decide

/-! ## Claim C2 -/

/-- GSLB example input whose server carries its own `add server` comment,
distinct from the gslb service comment. -/
def c2lines : List Str :=
  ["add server S2 10.0.0.2 -comment \"sc\"".data,
   "add gslb service GS1 S2 HTTP 80 -comment \"gc\"".data,
   "bind gslb vserver VS2 -serviceName GS1".data,
   "bind gslb vserver VS2 -domainName example.com".data]

/-- The GSLB row `c2lines` produces: column 5 holds the gslb service
comment, column 6 the server comment. -/
def c2row : Row :=
  ["example.com".data, "VS2".data, "GS1".data, "HTTP".data, "80".data,
   "gc".data, "sc".data, "S2".data, "10.0.0.2".data]

/-- The store reached after reading `c2lines`. -/
def c2state : NSState :=
  { servers := [("10.0.0.2".data, ("S2".data, "sc".data))],
    srvs := [("S2".data, ("GS1".data, "HTTP".data, "80".data, "gc".data))],
    vServers := [("GS1".data, "VS2".data)],
    VIPs := [],
    domains := [("VS2".data, "example.com".data)] }

/-- C2 (counterexample): on `c2lines` the single emitted GSLB row carries
the gslb service comment `gc` in its first comment column but the server's
own `add server` comment `sc` in its second comment column, so the two
comment columns do not both carry the comment parsed from the
`add gslb service` line. -/
theorem C2_counterexample :
    (runLines initState c2lines).map gslbReport = some [c2row] ∧
      c2row.get? 5 = some "gc".data ∧ c2row.get? 6 = some "sc".data ∧
      ("sc".data : Str) ≠ "gc".data :=
  ⟨by decide, by decide, by decide, by decide⟩

/-- C2 (amended): every emitted GSLB row has the shape (domain, vServer,
group, serviceType, port, serviceBindingComment, serverComment,
serverName, IP) — the first comment column is the comment stored with the
ServiceBinding fact and the second is the server's own `add server`
comment. -/
theorem C2_gslb_row_shape (s : NSState) (r : Row) (hr : r ∈ gslbReport s) :
    ∃ ip nm cm g k p sc v d,
      (ip, nm, cm) ∈ s.servers ∧ dget s.srvs nm = some (g, k, p, sc) ∧
      dget s.vServers g = some v ∧ dget s.domains v = some d ∧
      r = [d, v, g, k, p, sc, cm, nm, ip] := by
  unfold gslbReport at hr
  rcases List.mem_filterMap.mp hr with ⟨e, he, hrow⟩
  obtain ⟨ip, nm, cm⟩ := e
  cases h1 : dget s.srvs nm with
  | none => simp [gslbRowOf, h1] at hrow
  | some gv =>
    obtain ⟨g, k, p, sc⟩ := gv
    cases h2 : dget s.vServers g with
    | none => simp [gslbRowOf, h1, h2] at hrow
    | some v =>
      cases h3 : dget s.domains v with
      | none => simp [gslbRowOf, h1, h2, h3] at hrow
      | some d =>
        refine ⟨ip, nm, cm, g, k, p, sc, v, d, he, h1, h2, h3, ?_⟩
        have hsome : gslbRowOf s ip nm cm = some [d, v, g, k, p, sc, cm, nm, ip] := by
          simp [gslbRowOf, h1, h2, h3]
        have hrr : some r = some [d, v, g, k, p, sc, cm, nm, ip] := by
          rw [← hsome]
          exact hrow.symm
        exact Option.some.inj hrr

/-- Witness for the amended C2 at the concrete store of `c2lines`. -/
theorem C2_gslb_row_shape_witness :
    c2row ∈ gslbReport c2state ∧
      ∃ ip nm cm g k p sc v d,
        (ip, nm, cm) ∈ c2state.servers ∧ dget c2state.srvs nm = some (g, k, p, sc) ∧
        dget c2state.vServers g = some v ∧ dget c2state.domains v = some d ∧
        c2row = [d, v, g, k, p, sc, cm, nm, ip] :=
  ⟨by decide, C2_gslb_row_shape c2state c2row (by decide)⟩

/-! ## Claim C3 -/

/-- Input in which the only ServiceBinding fact for server `S3` is written
by the GSLB parser (kind tag `HTTP`), while its identifier nevertheless
resolves through `vServers` and `VIPs`. -/
def c3lines : List Str :=
  ["add server S3 10.9.9.9".data,
   "add gslb service GS3 S3 HTTP 80".data,
   "bind gslb vserver VS3 -serviceName GS3".data,
   "add lb vserver VS3 HTTP 198.51.100.7 80".data]

/-- The LB row that `c3lines` emits for the GSLB-written binding. -/
def c3row : Row :=
  ["198.51.100.7".data, "HTTP".data, "80".data, "".data, "VS3".data, "GS3".data,
   "80".data, "".data, "S3".data, "".data, "10.9.9.9".data]

/-- The store reached after reading `c3lines`. -/
def c3state : NSState :=
  { servers := [("10.9.9.9".data, ("S3".data, "".data))],
    srvs := [("S3".data, ("GS3".data, "HTTP".data, "80".data, "".data))],
    vServers := [("GS3".data, "VS3".data)],
    VIPs := [("VS3".data, ("198.51.100.7".data, "HTTP".data, "80".data, "".data))],
    domains := [] }

/-- C3 (counterexample): after reading `c3lines`, the ServiceBinding
entry of `S3` was last written by the GSLB parser (its kind tag `HTTP`
differs from `LB`), yet the LB report contains a row for that server, so
the kind tag does not isolate the two chains. -/
theorem C3_counterexample :
    runLines initState c3lines = some c3state ∧
      dget c3state.srvs "S3".data = some ("GS3".data, "HTTP".data, "80".data, "".data) ∧
      ("HTTP".data : Str) ≠ lbTag ∧
      lbReport c3state = [c3row] :=
  ⟨by decide, by decide, by decide, by decide⟩

/-- Rewrite the kind tag of one ServiceBinding value. -/
def kindVal (f : Str → Str) (x : Str × Str × Str × Str) : Str × Str × Str × Str :=
  (x.1, f x.2.1, x.2.2.1, x.2.2.2)

/-- Rewrite the kind tag of every entry of a ServiceBinding dictionary. -/
def mapKinds (f : Str → Str) (d : Dict (Str × Str × Str × Str)) :
    Dict (Str × Str × Str × Str) :=
  d.map (fun e => (e.1, kindVal f e.2))

/-- Rewrite the kind tag of every ServiceBinding entry of a store. -/
def setKinds (f : Str → Str) (s : NSState) : NSState :=
  { s with srvs := mapKinds f s.srvs }

/-- Rewrite the serviceType column (index 3) of a GSLB report row. -/
def kindCol (f : Str → Str) (r : Row) : Row :=
  match r with
  | d :: v :: g :: st :: rest => d :: v :: g :: f st :: rest
  | r => r

theorem dget_mapVal {α β : Type} (vmap : α → β) (d : Dict α) (k : Str) :
    dget (d.map (fun e => (e.1, vmap e.2))) k = (dget d k).map vmap := by
  induction d with
  | nil => rfl
  | cons e rest ih =>
    obtain ⟨k', v⟩ := e
    by_cases h : k' = k <;> simp [dget, h, ih]

theorem dget_mapKinds (f : Str → Str) (d : Dict (Str × Str × Str × Str)) (k : Str) :
    dget (mapKinds f d) k = (dget d k).map (kindVal f) :=
  dget_mapVal (kindVal f) d k

theorem lbRowOf_setKinds (f : Str → Str) (s : NSState) (ip nm cm : Str) :
    lbRowOf (setKinds f s) ip nm cm = lbRowOf s ip nm cm := by
  cases h1 : dget s.srvs nm with
  | none => simp [lbRowOf, setKinds, dget_mapKinds, h1]
  | some gv =>
    obtain ⟨g, k, p, c⟩ := gv
    simp [lbRowOf, setKinds, dget_mapKinds, h1, kindVal]

theorem gslbRowOf_setKinds (f : Str → Str) (s : NSState) (ip nm cm : Str) :
    gslbRowOf (setKinds f s) ip nm cm = (gslbRowOf s ip nm cm).map (kindCol f) := by
  cases h1 : dget s.srvs nm with
  | none => simp [gslbRowOf, setKinds, dget_mapKinds, h1]
  | some gv =>
    obtain ⟨g, k, p, c⟩ := gv
    cases h2 : dget s.vServers g with
    | none => simp [gslbRowOf, setKinds, dget_mapKinds, h1, h2, kindVal]
    | some v =>
      cases h3 : dget s.domains v with
      | none => simp [gslbRowOf, setKinds, dget_mapKinds, h1, h2, h3, kindVal]
      | some d => simp [gslbRowOf, setKinds, dget_mapKinds, h1, h2, h3, kindVal, kindCol]

theorem filterMap_ext {α β : Type} (f g : α → Option β) (l : List α)
    (h : ∀ a, f a = g a) : l.filterMap f = l.filterMap g := by
  induction l with
  | nil => rfl
  | cons x xs ih => simp [List.filterMap_cons, h x, ih]

/-- C3 (amended): neither report loop inspects the kind tag. Rewriting
the kind tag of every ServiceBinding entry arbitrarily leaves the LB
report unchanged and changes the GSLB report only in the displayed
serviceType column, so the tag provides no isolation between the two
chains: a GSLB-written entry produces an LB row whenever its identifier
resolves through `vServers` and `VIPs`, and symmetrically. -/
theorem C3_kind_blind (s : NSState) (f : Str → Str) :
    lbReport (setKinds f s) = lbReport s ∧
      gslbReport (setKinds f s) = (gslbReport s).map (kindCol f) := by
  constructor
  · exact filterMap_ext _ _ s.servers (fun e => lbRowOf_setKinds f s e.1 e.2.1 e.2.2)
  · have h1 : gslbReport (setKinds f s) =
        s.servers.filterMap (fun e => (gslbRowOf s e.1 e.2.1 e.2.2).map (kindCol f)) :=
      filterMap_ext _ _ s.servers (fun e => gslbRowOf_setKinds f s e.1 e.2.1 e.2.2)
    rw [h1, ← List.map_filterMap]
    rfl

/-! ## Claim C6 -/

/-- C6: processing two recognized `bind gslb vserver ... -domainName`
lines that bind domains `d1` then `d2` to the same virtual-server
identifier `v` (starting from a store with no entry for `v`) leaves
`domains` with a single entry for `v` whose value is the two domains
joined by a newline in processing order, every other key and every other
relation untouched.  No distinctness of `d1` and `d2` is required, so
repeated bindings of one domain accumulate without deduplication. -/
theorem C6_domain_accumulation (s : NSState) (l1 l2 v d1 d2 : Str)
    (hp1 : pfxOf bindGslbPfx (lowerStr l1) = true)
    (hs1 : hasSub svcFlag l1 = false) (hd1 : hasSub domFlag l1 = true)
    (h13 : (pysplit l1)[3]? = some v) (h15 : (pysplit l1)[5]? = some d1)
    (hp2 : pfxOf bindGslbPfx (lowerStr l2) = true)
    (hs2 : hasSub svcFlag l2 = false) (hd2 : hasSub domFlag l2 = true)
    (h23 : (pysplit l2)[3]? = some v) (h25 : (pysplit l2)[5]? = some d2)
    (h0 : dget s.domains v = none) :
    ∃ s1 s2, readline l1 s = some s1 ∧ readline l2 s1 = some s2 ∧
      dget s2.domains v = some (d1 ++ nlStr ++ d2) ∧
      (∀ w, w ≠ v → dget s2.domains w = dget s.domains w) ∧
      s2.servers = s.servers ∧ s2.srvs = s.srvs ∧
      s2.vServers = s.vServers ∧ s2.VIPs = s.VIPs := by
  have e1 : readline l1 s = some { s with domains := dset s.domains v d1 } := by
    rw [readline_gslb_vserver l1 s hp1]
    simp [gslb_vserver_parse, hs1, hd1, h13, h15, h0]
  have hget : dget (dset s.domains v d1) v = some d1 := dget_dset_self _ _ _
  have e2 : readline l2 { s with domains := dset s.domains v d1 } =
      some { s with domains := dset (dset s.domains v d1) v (d1 ++ nlStr ++ d2) } := by
    rw [readline_gslb_vserver l2 _ hp2]
    simp [gslb_vserver_parse, hs2, hd2, h23, h25, hget]
  refine ⟨_, _, e1, e2, dget_dset_self _ _ _, ?_, rfl, rfl, rfl, rfl⟩
  intro w hw
  rw [dget_dset_ne _ _ _ _ hw, dget_dset_ne _ _ _ _ hw]

def c6line1 : Str := "bind gslb vserver VSX -domainName a.example".data
def c6line2 : Str := "bind gslb vserver VSX -domainName b.example".data

/-- Witness for C6 on two concrete domain-binding lines. -/
theorem C6_domain_accumulation_witness :
    dget initState.domains "VSX".data = none ∧
      ∃ s1 s2, readline c6line1 initState = some s1 ∧ readline c6line2 s1 = some s2 ∧
        dget s2.domains "VSX".data = some ("a.example".data ++ nlStr ++ "b.example".data) ∧
        (∀ w, w ≠ "VSX".data → dget s2.domains w = dget initState.domains w) ∧
        s2.servers = initState.servers ∧ s2.srvs = initState.srvs ∧
        s2.vServers = initState.vServers ∧ s2.VIPs = initState.VIPs :=
  ⟨by decide,
   C6_domain_accumulation initState c6line1 c6line2 "VSX".data "a.example".data "b.example".data
     (by decide) (by decide) (by decide) (by decide) (by decide)
     (by decide) (by decide) (by decide) (by decide) (by decide) (by decide)⟩

/-! ## Claim C7 -/

/-- C7: after two recognized `bind lb vserver` lines carrying the same
service group and vservers `v1` then `v2`, `vServers[g]` is the vserver
of the most recently processed line, from any starting store (so however
many earlier bindings of `g` precede them, the last write wins). -/
theorem C7_last_bind_wins (s : NSState) (l1 l2 v1 v2 g : Str)
    (hp1 : pfxOf bindLbPfx (lowerStr l1) = true)
    (h13 : (pysplit l1)[3]? = some v1) (h14 : (pysplit l1)[4]? = some g)
    (hp2 : pfxOf bindLbPfx (lowerStr l2) = true)
    (h23 : (pysplit l2)[3]? = some v2) (h24 : (pysplit l2)[4]? = some g)
    (_hne : v1 ≠ v2) :
    ∃ s1 s2, readline l1 s = some s1 ∧ readline l2 s1 = some s2 ∧
      dget s2.vServers g = some v2 := by
  have e1 : readline l1 s = some { s with vServers := dset s.vServers g v1 } := by
    rw [readline_bind_lb l1 s hp1]
    simp [bind_lb_parse, h13, h14]
  have e2 : readline l2 { s with vServers := dset s.vServers g v1 } =
      some { s with vServers := dset (dset s.vServers g v1) g v2 } := by
    rw [readline_bind_lb l2 _ hp2]
    simp [bind_lb_parse, h23, h24]
  exact ⟨_, _, e1, e2, dget_dset_self _ _ _⟩

def c7line1 : Str := "bind lb vserver VA SGX".data
def c7line2 : Str := "bind lb vserver VB SGX".data

/-- Witness for C7 on two concrete re-binding lines. -/
theorem C7_last_bind_wins_witness :
    ("VA".data : Str) ≠ "VB".data ∧
      ∃ s1 s2, readline c7line1 c4state = some s1 ∧ readline c7line2 s1 = some s2 ∧
        dget s2.vServers "SGX".data = some "VB".data :=
  ⟨by decide,
   C7_last_bind_wins c4state c7line1 c7line2 "VA".data "VB".data "SGX".data
     (by decide) (by decide) (by decide) (by decide) (by decide) (by decide) (by decide)⟩

/-! ## Claim C8 -/

/-- C8: a recognized `bind serviceGroup` line carrying `-monitorName`
leaves the whole store unchanged — in particular no ServiceBinding entry
is overwritten. -/
theorem C8_monitor_noop (s : NSState) (l : Str)
    (hp : pfxOf bindSgPfx (lowerStr l) = true) (hmon : hasSub monFlag l = true) :
    readline l s = some s := by
  rw [readline_bind_sg l s hp]
  simp [bind_servicegroup_parse, hmon]

def c8line : Str := "bind serviceGroup SG1 -monitorName mon1".data

/-- Witness for C8 on a concrete monitor-binding line over a store that
already holds a ServiceBinding entry. -/
theorem C8_monitor_noop_witness :
    hasSub monFlag c8line = true ∧ readline c8line c4state = some c4state :=
  ⟨by decide, C8_monitor_noop c4state c8line (by decide) (by decide)⟩

/-! ## Claim C10 -/

/-- C10: `bind gslb vserver` sub-form dispatch is a case-sensitive
substring search with `-serviceName` taking precedence: any recognized
line containing `-serviceName` (even together with `-domainName`) is
processed as the service-name form only, writing `vServers` and nothing
else; and a recognized line containing neither exact-case flag leaves the
whole store unchanged without error. -/
theorem C10_gslb_dispatch (s : NSState) (l : Str)
    (hp : pfxOf bindGslbPfx (lowerStr l) = true) :
    (∀ v g, hasSub svcFlag l = true → (pysplit l)[3]? = some v →
      (pysplit l)[5]? = some g →
      readline l s = some { s with vServers := dset s.vServers g v }) ∧
    (hasSub svcFlag l = false → hasSub domFlag l = false →
      readline l s = some s) := by
  constructor
  · intro v g hsv h3 h5
    rw [readline_gslb_vserver l s hp]
    simp [gslb_vserver_parse, hsv, h3, h5]
  · intro hsv hdm
    rw [readline_gslb_vserver l s hp]
    simp [gslb_vserver_parse, hsv, hdm]

def c10both : Str := "bind gslb vserver V1 -serviceName G1 -domainName d.example".data
def c10neither : Str := "bind gslb vserver V1 -servicename G1".data

/-- Witness for C10: a line carrying both flags takes the service-name
form; a line with a wrong-case flag is a no-op. -/
theorem C10_gslb_dispatch_witness :
    (hasSub svcFlag c10both = true ∧ hasSub domFlag c10both = true ∧
      readline c10both initState =
        some { initState with vServers := dset initState.vServers "G1".data "V1".data }) ∧
    (hasSub svcFlag c10neither = false ∧ hasSub domFlag c10neither = false ∧
      readline c10neither initState = some initState) :=
  ⟨⟨by decide, by decide,
    (C10_gslb_dispatch initState c10both (by decide)).1 "V1".data "G1".data
      (by decide) (by decide) (by decide)⟩,
   ⟨by decide, by decide,
    (C10_gslb_dispatch initState c10neither (by decide)).2 (by decide) (by decide)⟩⟩

/-! ## Claim C9 -/

theorem runTrace_append (pre ls : List Str) : ∀ s0 s : NSState,
    runLines s0 pre = some s → runTrace s0 (pre ++ ls) = runTrace s ls := by
  induction pre with
  | nil =>
    intro s0 s h
    obtain rfl := Option.some.inj h
    rfl
  | cons l pre ih =>
    intro s0 s h
    unfold runLines at h
    cases hr : readline l s0 with
    | none => rw [hr] at h; cases h
    | some s1 =>
      rw [hr] at h
      have hih := ih s1 s h
      calc runTrace s0 ((l :: pre) ++ ls) = runTrace s1 (pre ++ ls) := by
            rw [List.cons_append]
            show runTrace s0 (l :: (pre ++ ls)) = runTrace s1 (pre ++ ls)
            conv_lhs => rw [runTrace]
            rw [hr]
        _ = runTrace s ls := hih

/-- A recognized, non-diverted directive line with too few tokens makes
`readline` raise (`none`), whatever the store. -/
theorem readline_short_none (l : Str) (s : NSState) (n : Nat)
    (hreq : requiredToks l = some n) (hshort : (pysplit l).length < n) :
    readline l s = none := by
  by_cases hA : pfxOf addServerPfx (lowerStr l) = true
  · have hn : (4 : Nat) = n := by simpa [requiredToks, hA] using hreq
    subst hn
    have h3 : (pysplit l)[3]? = none := List.getElem?_eq_none_iff.mpr (by omega)
    rcases h2 : (pysplit l)[2]? with _ | x <;>
      simp [readline, hA, server_parse, h2, h3]
  · by_cases hB : pfxOf bindSgPfx (lowerStr l) = true
    · by_cases hM : hasSub monFlag l = true
      · simp [requiredToks, hA, hB, hM] at hreq
      · have hn : (5 : Nat) = n := by simpa [requiredToks, hA, hB, hM] using hreq
        subst hn
        have h4 : (pysplit l)[4]? = none := List.getElem?_eq_none_iff.mpr (by omega)
        rcases h2 : (pysplit l)[2]? with _ | x <;>
          rcases h3 : (pysplit l)[3]? with _ | y <;>
            simp [readline, hA, hB, bind_servicegroup_parse, hM, h2, h3, h4]
    · by_cases hC : pfxOf bindLbPfx (lowerStr l) = true
      · have hn : (5 : Nat) = n := by simpa [requiredToks, hA, hB, hC] using hreq
        subst hn
        have h4 : (pysplit l)[4]? = none := List.getElem?_eq_none_iff.mpr (by omega)
        rcases h3 : (pysplit l)[3]? with _ | x <;>
          simp [readline, hA, hB, hC, bind_lb_parse, h3, h4]
      · by_cases hD : pfxOf addLbPfx (lowerStr l) = true
        · have hn : (7 : Nat) = n := by simpa [requiredToks, hA, hB, hC, hD] using hreq
          subst hn
          have h6 : (pysplit l)[6]? = none := List.getElem?_eq_none_iff.mpr (by omega)
          rcases h3 : (pysplit l)[3]? with _ | x <;>
            rcases h4 : (pysplit l)[4]? with _ | y <;>
              rcases h5 : (pysplit l)[5]? with _ | z <;>
                simp [readline, hA, hB, hC, hD, lb_vserver_parse, h3, h4, h5, h6]
        · by_cases hE : pfxOf addGslbPfx (lowerStr l) = true
          · have hn : (7 : Nat) = n := by simpa [requiredToks, hA, hB, hC, hD, hE] using hreq
            subst hn
            have h6 : (pysplit l)[6]? = none := List.getElem?_eq_none_iff.mpr (by omega)
            rcases h3 : (pysplit l)[3]? with _ | x <;>
              rcases h4 : (pysplit l)[4]? with _ | y <;>
                rcases h5 : (pysplit l)[5]? with _ | z <;>
                  simp [readline, hA, hB, hC, hD, hE, gslb_parse, h3, h4, h5, h6]
          · by_cases hF : pfxOf bindGslbPfx (lowerStr l) = true
            · by_cases hS : hasSub svcFlag l = true
              · have hn : (6 : Nat) = n := by
                  simpa [requiredToks, hA, hB, hC, hD, hE, hF, hS] using hreq
                subst hn
                have h5 : (pysplit l)[5]? = none := List.getElem?_eq_none_iff.mpr (by omega)
                rcases h3 : (pysplit l)[3]? with _ | x <;>
                  simp [readline, hA, hB, hC, hD, hE, hF, gslb_vserver_parse, hS, h3, h5]
              · by_cases hG : hasSub domFlag l = true
                · have hn : (6 : Nat) = n := by
                    simpa [requiredToks, hA, hB, hC, hD, hE, hF, hS, hG] using hreq
                  subst hn
                  have h5 : (pysplit l)[5]? = none := List.getElem?_eq_none_iff.mpr (by omega)
                  rcases h3 : (pysplit l)[3]? with _ | x <;>
                    simp [readline, hA, hB, hC, hD, hE, hF, gslb_vserver_parse, hS, hG, h3, h5]
                · simp [requiredToks, hA, hB, hC, hD, hE, hF, hS, hG] at hreq
            · simp [requiredToks, hA, hB, hC, hD, hE, hF] at hreq

/-- C9: a line recognized as one of the six directives and not diverted
to a read-free variant, whose whitespace token count is below what its
parser's fixed-position reads require, makes `readline` raise
(`none`), and in a run the raise happens with the store exactly as the
preceding lines left it — no partial fact is written by the failing line
and no later line is processed. -/
theorem C9_short_line_fatal (pre rest : List Str) (l : Str) (s : NSState) (n : Nat)
    (hpre : runLines initState pre = some s)
    (hreq : requiredToks l = some n) (hshort : (pysplit l).length < n) :
    readline l s = none ∧ runTrace initState (pre ++ l :: rest) = (s, true) := by
  have hnone : readline l s = none := readline_short_none l s n hreq hshort
  refine ⟨hnone, ?_⟩
  rw [runTrace_append pre (l :: rest) initState s hpre]
  conv_lhs => rw [runTrace]
  rw [hnone]

def c9pre : List Str := ["add server SRV9 10.0.0.9".data]
def c9bad : Str := "add server S1".data
def c9rest : List Str := ["bind lb vserver V G".data]

/-- The store after `c9pre` alone. -/
def c9state : NSState :=
  { servers := [("10.0.0.9".data, ("SRV9".data, "".data))],
    srvs := [], vServers := [], VIPs := [], domains := [] }

/-- Witness for C9: a three-token `add server` line aborts the run with
the store exactly as the earlier lines left it. -/
theorem C9_short_line_fatal_witness :
    runLines initState c9pre = some c9state ∧
      requiredToks c9bad = some 4 ∧ (pysplit c9bad).length < 4 ∧
      readline c9bad c9state = none ∧
      runTrace initState (c9pre ++ c9bad :: c9rest) = (c9state, true) := by
  refine ⟨by decide, by decide, by decide, ?_, ?_⟩
  · exact (C9_short_line_fatal c9pre c9rest c9bad c9state 4 (by decide) (by decide) (by decide)).1
  · exact (C9_short_line_fatal c9pre c9rest c9bad c9state 4 (by decide) (by decide) (by decide)).2
